import Mathlib

/-!
Verification development for the `sellac` PES wrapper (`sellac/peswrapper.py`).

The development shallowly embeds the parts of `PES` and `InternalPES` that the
checked properties speak about:

* vectors are `List ℚ` (flattened numpy arrays), matrices are lists of rows;
* the `curr`/`last` cache dictionaries are records whose slots are
  `Option (Option _)`: the outer layer models *key presence* in the Python
  dict (`none` = key absent), the inner layer models the Python value
  (`none` = Python `None`);
* external collaborators (the ASE calculator, the constraint system's
  least-squares solve, `_calc_basis`, the internal-coordinate Jacobian, and
  the numpy vector norm) are oracle parameters: deterministic functions of
  the position supplied to each operation;
* the scipy `LSODA` integrator inside `InternalPES.set_x` is modelled by a
  trace: the list of `(status, t, y, nfev, bad-internal check)` observations
  the Python loop would make after each `ode.step()` call.  The loop itself
  is translated literally from the source.
-/

abbrev Vec := List ℚ

abbrev Mat := List Vec

def dotQ (a b : Vec) : ℚ := (List.zipWith (· * ·) a b).sum

def vsub (a b : Vec) : Vec := List.zipWith (· - ·) a b

def vsmul (c : ℚ) (v : Vec) : Vec := v.map (fun a => c * a)

/-- `np.zeros_like(v)`. -/
def zerosLike (v : Vec) : Vec := v.map (fun _ => 0)

/-- Matrix–vector product `M @ v` (rows dotted with `v`). -/
def matVec (M : Mat) (v : Vec) : Vec := M.map (fun row => dotQ row v)

/-- `A @ B.T`: entry `(i,j)` is the dot product of row `i` of `A` with row `j` of `B`. -/
def mulTrans (A B : Mat) : Mat := A.map (fun ra => B.map (fun rb => dotQ ra rb))

def colQ (M : Mat) (j : ℕ) : Vec := M.map (fun r => r.getD j 0)

/-- Matrix product `A @ B`. -/
def matMul (A B : Mat) : Mat :=
  A.map (fun ra => (List.range (B.headD []).length).map (fun j => dotQ ra (colQ B j)))

/-- Value of a dict slot read by direct indexing `d[k]`.  In the source every
`curr`/`last` dict literal contains the keys that are read this way, so the
key is present and the stored Python value (possibly `None`) is returned;
`none` is only produced for an absent key, where the source would raise
`KeyError` (no reachable state does). -/
def slotVal {α : Type} (slot : Option (Option α)) : Option α := slot.getD none

/-- The basis data produced by `_calc_basis`: `drdx, Ucons, Unred, Ufree`.
Its computation delegates to the external constraint system, so it is
supplied by an oracle. -/
structure BasisData where
  drdx : Mat
  ucons : Mat
  unred : Mat
  ufree : Mat
deriving DecidableEq

/-- One `curr`/`last` cache dict.  Slots are `Option (Option _)`:
outer `none` = key absent from the dict, inner `none` = Python `None`.
The `gfree`/`hfree` keys of the constructor's dict literal are never read
anywhere in the module and are omitted. -/
structure Entry where
  x : Option (Option Vec)
  f : Option (Option ℚ)
  g : Option (Option Vec)
  L : Option (Option Vec)
  basis : Option BasisData
deriving DecidableEq

/-- The `curr` dict installed by `PES.__init__`:
`dict(x=None, f=None, g=None, gfree=None, hfree=None)` — every listed key is
present with value `None`; `L` and the basis keys are absent. -/
def initEntry : Entry :=
  { x := some none, f := some none, g := some none, L := none, basis := none }

/-- The mutable state of a Cartesian `PES` instance that the checked claims
touch: the structure's flattened positions, the savepoint, the evaluation
counter and the two cache dicts. -/
structure PESState where
  pos : Vec
  savepoint : Option Vec
  neval : ℕ
  curr : Entry
  last : Entry
deriving DecidableEq

/-- State after `PES.__init__`: fresh cache entries (`last = curr.copy()`),
`neval = 0`, `savepoint = dict(apos=None, dpos=None)`. -/
def initState (pos : Vec) : PESState :=
  { pos := pos, savepoint := none, neval := 0, curr := initEntry, last := initEntry }

/-- `PES.get_x`: `self.apos.ravel().copy()`. -/
def getX (s : PESState) : Vec := s.pos

/-- Cartesian `PES.set_x`:
`diff = target - self.get_x(); self.atoms.positions = target.reshape((-1,3));`
`return diff, diff, self.curr.get('g', np.zeros_like(diff))`.
The third component is a Python value (`Option Vec`: `none` = Python `None`). -/
def setX (target : Vec) (s : PESState) : (Vec × Vec × Option Vec) × PESState :=
  let diff := vsub target (getX s)
  ((diff, diff, s.curr.g.getD (some (zerosLike diff))), { s with pos := target })

/-- External collaborators consumed by `_update`:
the energy/force evaluator (`atoms.get_potential_energy` / `-get_forces`),
`_calc_basis` (constraint-system dependent), and the least-squares solve
`np.linalg.lstsq(drdx.T, g)[0]` for the Lagrange multipliers. -/
structure Oracles where
  ev : Vec → ℚ × Vec
  calcBasis : Vec → BasisData
  lstsqL : Mat → Vec → Vec

/-- Tail of `PES._update` past the early-return test: computes the basis,
forces `feval` on a new point (the `print("Force change feval")` branch),
optionally evaluates (incrementing `neval` inside `eval`), and rebuilds or
patches `curr`, promoting the old `curr` to `last` exactly on a new point. -/
def updateCore (o : Oracles) (fevalReq newPoint : Bool) (x : Vec) (s : PESState) :
    Bool × PESState :=
  let basis := o.calcBasis x
  let feval := if newPoint && !fevalReq then true else fevalReq
  let fgL : Option ℚ × Option Vec × Option Vec :=
    if feval then
      let fg := o.ev x
      (some fg.1, some fg.2, some (o.lstsqL basis.drdx fg.2))
    else (none, none, none)
  let neval2 := if feval then s.neval + 1 else s.neval
  let freshEntry : Entry :=
    { x := some (some x), f := some fgL.1, g := some fgL.2.1,
      L := some fgL.2.2, basis := some basis }
  let patchedEntry : Entry :=
    { s.curr with f := some fgL.1, g := some fgL.2.1, L := some fgL.2.2 }
  if newPoint then
    (true, { s with neval := neval2, last := s.curr, curr := freshEntry })
  else
    (true, { s with neval := neval2, curr := patchedEntry })

/-- `PES._update(feval)`.  Early-return logic translated from the source:
`if self.curr['x'] is not None and np.all(x == self.curr['x']):`
`    if feval and self.curr['f'] is None: new_point = False`
`    else: return False`. -/
def update (o : Oracles) (feval : Bool) (s : PESState) : Bool × PESState :=
  let x := getX s
  if slotVal s.curr.x = some x then
    if feval && (slotVal s.curr.f).isNone then
      updateCore o feval false x s
    else
      (false, s)
  else
    updateCore o feval true x s

/-- `PES.get_f`: `self._update(); return self.curr['f']`. -/
def getF (o : Oracles) (s : PESState) : Option ℚ × PESState :=
  let r := update o true s
  (slotVal r.2.curr.f, r.2)

/-- `PES.get_g`: `self._update(); return self.curr['g'].copy()`. -/
def getG (o : Oracles) (s : PESState) : Option Vec × PESState :=
  let r := update o true s
  (slotVal r.2.curr.g, r.2)

/-- `PES._calc_eg(x)`: `self.save(); self.set_x(x); f, g = self.eval();`
`self.restore(); return f, g`.  The calculator call inside `eval` may raise
(modelled by an `Except`-valued evaluator); `eval` increments `neval`
*before* that call.  There is no try/finally in the source, so on the error
path `restore()` never runs and the exception propagates with the structure
left at the probe position. -/
def calcEg (ev : Vec → Except Unit (ℚ × Vec)) (x : Vec) (s : PESState) :
    PESState × Except Unit (ℚ × Vec) :=
  let s1 := { s with savepoint := some s.pos }
  let s2 := (setX x s1).2
  let s3 := { s2 with neval := s2.neval + 1 }
  match ev (getX s2) with
  | .error e => (s3, .error e)
  | .ok fg =>
    let s4 := { s3 with pos := s3.savepoint.getD s3.pos }
    (s4, .ok fg)

/-- The numpy Euclidean vector norm, treated as a black-box numerical
primitive (it computes with floating-point square roots). -/
structure NormOracle where
  vnorm : Vec → ℚ

/-- Split a flat vector into rows of three: `reshape((-1, 3))`. -/
def chunk3 : Vec → List Vec
  | [] => []
  | [a] => [[a]]
  | [a, b] => [[a, b]]
  | a :: b :: c :: rest => [a, b, c] :: chunk3 rest

/-- `np.max` over a list; the source's `.max()` errors on an empty array, the
`0` default is never exercised for a structure with at least one atom. -/
def listMaxQ : Vec → ℚ
  | [] => 0
  | h :: t => t.foldl max h

/-- `PES.get_projected_forces`: `-((Ufree @ Ufree.T) @ g).reshape((-1, 3))`,
as a list of rows. -/
def getProjectedForces (ufree : Mat) (g : Vec) : List Vec :=
  chunk3 (vsmul (-1) (matVec (mulTrans ufree ufree) g))

/-- `PES.converged(fmax, cmax)` over the values its method calls return
(`get_g() ↦ g`, `get_Ufree() ↦ ufree`, `get_res() ↦ res`):
`fmax1 = np.linalg.norm(self.get_projected_forces(), axis=1).max()`,
`cmax1 = np.linalg.norm(self.get_res())`,
`conv = (fmax1 < fmax) and (cmax1 < cmax)`; returns `(conv, fmax1, cmax1)`. -/
def converged (no : NormOracle) (ufree : Mat) (g res : Vec) (fmax cmax : ℚ) :
    Bool × ℚ × ℚ :=
  let fmax1 := listMaxQ ((getProjectedForces ufree g).map no.vnorm)
  let cmax1 := no.vnorm res
  (decide (fmax1 < fmax) && decide (cmax1 < cmax), fmax1, cmax1)

/-- States of a Cartesian `PES` reachable through its mutating operations
(`__init__`, `_update` — through which every `get_f`/`get_g`/`get_U*`
call and `kick` mutate the cache — `set_x`, and `_calc_eg`). -/
inductive Reachable : PESState → Prop
  | init (pos : Vec) : Reachable (initState pos)
  | step_update (o : Oracles) (feval : Bool) {s : PESState} :
      Reachable s → Reachable (update o feval s).2
  | step_setX (target : Vec) {s : PESState} :
      Reachable s → Reachable (setX target s).2
  | step_calcEg (ev : Vec → Except Unit (ℚ × Vec)) (x : Vec) {s : PESState} :
      Reachable s → Reachable (calcEg ev x s).1

/-! ## InternalPES -/

/-- The `sellac.linalg.ApproximateHessian` surface the claims touch: the
stored matrix (`None`-able) and the `initialized` flag. -/
structure ApproxHessian where
  mat : Option Mat
  initialized : Bool
deriving DecidableEq

/-- `PES.set_H(target, initialized=...)`: wraps `target` in a fresh
`ApproximateHessian` carrying the given flag. -/
def setHmodel (target : Option Mat) (initFlag : Bool) : ApproxHessian :=
  { mat := target, initialized := initFlag }

/-- Hessian initialization of `InternalPES.__init__` (lines 352–375).
`PES.__init__` is invoked with `H0=None`, installing `set_H(None,
initialized=False)`; then, if the caller passed no `H0`, a guess Hessian
`P @ guess_hessian @ P` with `P = B @ pinv(B)` is built and installed with
`initialized=False`; then — unconditionally — `set_H(H0, initialized=True)`
runs, followed by `self.H.initialized = False`.  `B` and `pinv(B)` are
oracle-supplied (numpy pseudoinverse). -/
def internalInitH (H0 : Option Mat) (guessH B Bpinv : Mat) : ApproxHessian :=
  let _hBase := setHmodel none false
  match H0 with
  | none =>
    let P := matMul B Bpinv
    let H0g := matMul (matMul P guessH) P
    let _hGuess := setHmodel (some H0g) false
    let hFinal := setHmodel (some H0g) true
    { hFinal with initialized := false }
  | some m =>
    let hFinal := setHmodel (some m) true
    { hFinal with initialized := false }

/-- The dict returned by `int.check_for_bad_internals()`: the bonds and
angles implicated in a bad-internal-coordinate detection. -/
structure BadInt where
  bonds : List (ℕ × ℕ)
  angles : List (ℕ × ℕ × ℕ)
deriving DecidableEq

/-- `scipy.integrate.LSODA` step status. -/
inductive OdeStatus
  | running
  | finished
  | failed
deriving DecidableEq

/-- One observation the `InternalPES.set_x` loop makes after `ode.step()`:
the integrator status, `ode.t`, the three blocks of `ode.y` (positions,
displacement-rate accumulator, gradient-transport accumulator), `ode.nfev`,
and the result of `self.int.check_for_bad_internals()` at the geometry the
step left behind. -/
structure OdeStep where
  status : OdeStatus
  t : ℚ
  y1 : Vec
  y2 : Vec
  y3 : Vec
  nfev : ℕ
  badInt : Option BadInt
deriving DecidableEq

/-- Result of the `while ode.status == 'running'` loop plus the
`if ode.status == 'failed'` check that follows it. -/
inductive LoopExit
  | tooLong
  | failedErr
  | done (t0 : ℚ) (y1 y2 y3 : Vec) (badInt : Option BadInt)
  | outOfTrace
deriving DecidableEq

/-- The integration loop of `InternalPES.set_x`, translated literally over a
step trace.  The loop body runs once per `ode.step()`: it records `y` and
`t0`, assigns `self.bad_int` from the bad-internal check and breaks when it
is not `None`, then raises when `ode.nfev > 1000`; the `while` condition is
re-checked afterwards, and once the loop is left (by break or by the status
leaving `'running'`), `if ode.status == 'failed'` raises.  `outOfTrace`
marks a trace exhausted while the integrator still reports `running` — a
modelling artifact, not an execution of the source. -/
def setXLoop : List OdeStep → LoopExit
  | [] => .outOfTrace
  | st :: rest =>
    if st.badInt.isSome then
      if st.status = .failed then .failedErr
      else .done st.t st.y1 st.y2 st.y3 st.badInt
    else if 1000 < st.nfev then .tooLong
    else
      match st.status with
      | .running => setXLoop rest
      | .failed => .failedErr
      | .finished => .done st.t st.y1 st.y2 st.y3 none

/-- A step at which the loop does not continue: bad internals detected
(break), evaluation ceiling exceeded (raise), or status no longer
`running` (while-condition exit). -/
def stepExits (st : OdeStep) : Bool :=
  st.badInt.isSome || decide (1000 < st.nfev) || decide (st.status ≠ OdeStatus.running)

/-- The first step of the trace at which the loop stops, if any. -/
def exitStep (steps : List OdeStep) : Option OdeStep := steps.find? stepExits

/-- What `InternalPES.set_x` produces past the loop (lines 409–418): final
atom/dummy positions split out of `y[0]`, and the returned triple
`dx_initial = t0 * dx`, `dx_final = t0 * B @ y[1]`, `g_final = B @ y[2]`
with `B` the internal-coordinate Jacobian at the final positions. -/
structure SetXRet where
  dx_initial : Vec
  dx_final : Vec
  g_final : Vec
  posAtoms : Vec
  posDummies : Vec
  badInt : Option BadInt
deriving DecidableEq

inductive SetXOutcome
  | tooLongError
  | failedError
  | ok (r : SetXRet)
  | notModelled
deriving DecidableEq

/-- `InternalPES.set_x` for a requested internal displacement `dx`, driven
by an integrator trace.  `jac` is the internal-coordinate Jacobian as a
function of the stacked positions `y[0]` (the source reads it from the
structure right after applying those positions), `na = 3 * len(atoms)`.
The `y0` assembly and `_q_ode` dynamics live inside the integrator oracle;
raising is `tooLongError` / `failedError`. -/
def setXInt (jac : Vec → Mat) (na : ℕ) (dx : Vec) (steps : List OdeStep) : SetXOutcome :=
  match setXLoop steps with
  | .tooLong => .tooLongError
  | .failedErr => .failedError
  | .outOfTrace => .notModelled
  | .done t0 y1 y2 y3 bad =>
    let B := jac y1
    .ok { dx_initial := vsmul t0 dx
        , dx_final := vsmul t0 (matVec B y2)
        , g_final := matVec B y3
        , posAtoms := y1.take na
        , posDummies := y1.drop na
        , badInt := bad }

/-- The return triple as the spec words it (§4.4): realized displacement
*and* realized gradient re-projected through the Jacobian and both scaled by
the completed fraction `t0`.  Stated from the spec for comparison with
`setXInt`, which the source defines. -/
def specReturnTriple (t0 : ℚ) (B : Mat) (dx y2 y3 : Vec) : Vec × Vec × Vec :=
  (vsmul t0 dx, vsmul t0 (matVec B y2), vsmul t0 (matVec B y3))

/-- The `InternalPES` fields that the bad-internal deferral logic touches:
the `bad_int` flag and the identity of the current internal-coordinate set
(bumped each time `update_internals` regenerates it; the numerical
re-basing inside `update_internals` is not needed by the claims). -/
structure IntFlags where
  badInt : Option BadInt
  coordGen : ℕ
deriving DecidableEq

/-- Effect of `InternalPES.update_internals` on the coordinate-set identity:
a wholesale regeneration of the internal-coordinate set. -/
def updateInternalsModel (fl : IntFlags) : IntFlags :=
  { fl with coordGen := fl.coordGen + 1 }

/-- Tail of `InternalPES.kick` after the base-class `kick` (hence after
`set_x`) returned: `if self.bad_int is not None: self.update_internals(dx);`
`self.bad_int = None`. -/
def internalKickPost (fl : IntFlags) : IntFlags :=
  match fl.badInt with
  | some _ => { updateInternalsModel fl with badInt := none }
  | none => fl

/-! ## Concrete instances used by witnesses and counterexamples -/

/-- A concrete oracle assignment (the claims hold for every oracle). -/
def oracle0 : Oracles :=
  { ev := fun v => (1, v), calcBasis := fun _ => ⟨[], [], [], []⟩, lstsqL := fun _ g => g }

/-- An always-raising calculator (e.g. an SCF that fails to converge). -/
def failEv : Vec → Except Unit (ℚ × Vec) := fun _ => .error ()

/-- A calculator that returns energy `0` and gradient equal to the position. -/
def okEv : Vec → Except Unit (ℚ × Vec) := fun v => .ok (0, v)

/-- A state whose cache matches the current position and holds energy `5`. -/
def state5 : PESState :=
  { pos := [2], savepoint := none, neval := 3,
    curr := { x := some (some [2]), f := some (some 5), g := some (some [0]),
              L := none, basis := none },
    last := initEntry }

/-- A state whose cache matches the current position but holds no energy
(`curr['f'] is None`). -/
def state7 : PESState :=
  { pos := [1], savepoint := none, neval := 0,
    curr := { x := some (some [1]), f := some none, g := some none,
              L := none, basis := none },
    last := initEntry }

/-- A concrete internal-coordinate Jacobian oracle (one internal, one dof). -/
def jac0 : Vec → Mat := fun _ => [[1]]

/-- A concrete bad-internal record: bond (0,1) implicated. -/
def badInt0 : BadInt := { bonds := [(0, 1)], angles := [] }

/-- A step at which bad internals are detected while the integrator is still
running (an accepted step). -/
def stepC1w : OdeStep :=
  { status := .running, t := 3/4, y1 := [1], y2 := [0], y3 := [0],
    nfev := 5, badInt := some badInt0 }

def stepsC1w : List OdeStep := [stepC1w]

/-- A trace on which the integrator finishes the interval on its second step
while its evaluation count crosses the ceiling on that same step: no step
fails and the integration resolves, yet the loop body's `ode.nfev > 1000`
check fires before the `while` condition is re-read. -/
def stepsC1cex : List OdeStep :=
  [{ status := .running, t := 1/2, y1 := [0], y2 := [0], y3 := [0],
     nfev := 600, badInt := none },
   { status := .finished, t := 1, y1 := [0], y2 := [0], y3 := [0],
     nfev := 1001, badInt := none }]

/-- A trace stopped at `t0 = 1/2` by a bad-internal detection, with nonzero
accumulators so that the scaling of the returned gradient is observable. -/
def stepsC2 : List OdeStep :=
  [{ status := .running, t := 1/2, y1 := [5], y2 := [2], y3 := [4],
     nfev := 10, badInt := some badInt0 }]

/-- What `setXInt jac0 1 [2] stepsC2` evaluates to: note `g_final = [4]`,
not scaled by `t0 = 1/2`. -/
def retC2 : SetXRet :=
  { dx_initial := [1], dx_final := [1], g_final := [4],
    posAtoms := [5], posDummies := [], badInt := some badInt0 }

/-- The loop exit produced by the first exiting step of a trace (the nested
decision order of the source loop body, factored out of `setXLoop` for the
characterization lemmas). -/
def loopExitOf (st : OdeStep) : LoopExit :=
  if st.badInt.isSome then
    if st.status = .failed then .failedErr
    else .done st.t st.y1 st.y2 st.y3 st.badInt
  else if 1000 < st.nfev then .tooLong
  else if st.status = .failed then .failedErr
  else .done st.t st.y1 st.y2 st.y3 none

/-! ## Helper lemmas -/

lemma updateCore_newPoint (o : Oracles) (fevalReq : Bool) (x : Vec) (s : PESState) :
    updateCore o fevalReq true x s =
      (true, { s with neval := s.neval + 1, last := s.curr,
                      curr := { x := some (some x), f := some (some (o.ev x).1), g := some (some (o.ev x).2), L := some (some (o.lstsqL (o.calcBasis x).drdx (o.ev x).2)), basis := some (o.calcBasis x) } }) := by
  cases fevalReq <;> rfl

lemma updateCore_samePoint (o : Oracles) (x : Vec) (s : PESState) :
    updateCore o true false x s =
      (true, { s with neval := s.neval + 1,
                      curr := { s.curr with f := some (some (o.ev x).1), g := some (some (o.ev x).2), L := some (some (o.lstsqL (o.calcBasis x).drdx (o.ev x).2)) } }) :=
  rfl

lemma update_stable_of (o : Oracles) (feval : Bool) (s : PESState)
    (h1 : slotVal s.curr.x = some (getX s)) (h2 : (slotVal s.curr.f).isSome) :
    update o feval s = (false, s) := by
  have h2' : (slotVal s.curr.f).isNone = false := by
    cases hf : slotVal s.curr.f with
    | none => rw [hf] at h2; exact absurd h2 (by simp)
    | some v => rfl
  unfold update
  rw [if_pos h1, h2', Bool.and_false, if_neg (by simp)]

lemma update_true_post (o : Oracles) (s : PESState) :
    slotVal (update o true s).2.curr.x = some (getX (update o true s).2) ∧
    (slotVal (update o true s).2.curr.f).isSome := by
  unfold update
  by_cases h1 : slotVal s.curr.x = some (getX s)
  · rw [if_pos h1]
    by_cases h2 : (slotVal s.curr.f).isNone
    · rw [h2, Bool.and_true, if_pos rfl, updateCore_samePoint]
      exact ⟨h1, rfl⟩
    · rw [Bool.eq_false_iff.mpr h2, Bool.and_false, if_neg (by simp)]
      refine ⟨h1, ?_⟩
      cases hf : slotVal s.curr.f with
      | none => exact absurd (by rw [hf]; rfl) h2
      | some v => rfl
  · rw [if_neg h1, updateCore_newPoint]
    exact ⟨rfl, rfl⟩

lemma update_true_stable (o : Oracles) (s : PESState) :
    update o true (update o true s).2 = (false, (update o true s).2) :=
  update_stable_of o true (update o true s).2 (update_true_post o s).1 (update_true_post o s).2

/-! ## Claims C5, C6, C9, C3 -/

/-- C5 (confirmed): in Cartesian mode, for every target of the right
dimension, `get_x()` right after `set_x(target)` returns exactly `target`,
and the `set_x` return triple is `(initial displacement, realized
displacement, gradient-at-old-point)` with the realized displacement equal
to the requested one. -/
theorem claim_C5_cartesian_roundtrip (s : PESState) (target : Vec)
    (_hdim : target.length = (getX s).length) :
    getX (setX target s).2 = target ∧
    (setX target s).1.1 = vsub target (getX s) ∧
    (setX target s).1.2.1 = (setX target s).1.1 :=
  ⟨rfl, rfl, rfl⟩

theorem claim_C5_witness :
    getX (setX [1, 2, 3] (initState [0, 0, 0])).2 = [1, 2, 3] ∧
    (setX [1, 2, 3] (initState [0, 0, 0])).1.1 = vsub [1, 2, 3] (getX (initState [0, 0, 0])) ∧
    (setX [1, 2, 3] (initState [0, 0, 0])).1.2.1 = (setX [1, 2, 3] (initState [0, 0, 0])).1.1 :=
  claim_C5_cartesian_roundtrip (initState [0, 0, 0]) [1, 2, 3] (by decide)

/-- C6 (confirmed): `converged(fmax, cmax)` returns a triple whose first
component is `True` iff both the max per-atom norm of the
constraint-orthogonal forces is strictly below `fmax` and the
constraint-residual norm is strictly below `cmax`; its second and third
components are exactly those two quantities. -/
theorem claim_C6_converged (no : NormOracle) (ufree : Mat) (g res : Vec) (fmax cmax : ℚ) :
    ((converged no ufree g res fmax cmax).1 = true ↔
      listMaxQ ((getProjectedForces ufree g).map no.vnorm) < fmax ∧ no.vnorm res < cmax) ∧
    (converged no ufree g res fmax cmax).2.1 =
      listMaxQ ((getProjectedForces ufree g).map no.vnorm) ∧
    (converged no ufree g res fmax cmax).2.2 = no.vnorm res := by
  refine ⟨?_, rfl, rfl⟩
  simp [converged]

/-- C9 (confirmed): after `InternalPES.__init__` the approximate Hessian's
`initialized` flag is `False` even when an explicit `H0` is supplied: the
constructor installs the supplied (or guess) matrix with `initialized=True`
and then unconditionally overwrites the flag to `False`. -/
theorem claim_C9_hessian_flag (H0 : Option Mat) (guessH B Bpinv : Mat) :
    (internalInitH H0 guessH B Bpinv).initialized = false ∧
    (∀ m, H0 = some m → (internalInitH H0 guessH B Bpinv).mat = some m) ∧
    (H0 = none → (internalInitH H0 guessH B Bpinv).mat =
      some (matMul (matMul (matMul B Bpinv) guessH) (matMul B Bpinv))) := by
  cases H0 <;> simp [internalInitH, setHmodel]

theorem claim_C9_witness :
    (internalInitH (some [[5]]) [[1]] [[1]] [[1]]).initialized = false ∧
    (internalInitH (some [[5]]) [[1]] [[1]] [[1]]).mat = some [[5]] :=
  ⟨(claim_C9_hessian_flag (some [[5]]) [[1]] [[1]] [[1]]).1,
   (claim_C9_hessian_flag (some [[5]]) [[1]] [[1]] [[1]]).2.1 [[5]] rfl⟩

/-- C3 (counterexample): `_calc_eg` does *not* restore the saved position on
the exceptional exit path.  On the concrete initial state at position `[0]`,
probing `[1]` with a raising calculator leaves the externally visible
position at the probe point `[1]` while the exception propagates — the
source has no try/finally, so `restore()` is skipped. -/
theorem claim_C3_cex :
    (calcEg failEv [1] (initState [0])).1.pos = [1] ∧
    (initState [0]).pos = [0] ∧
    (calcEg failEv [1] (initState [0])).2 = .error () :=
  ⟨rfl, rfl, rfl⟩

/-- C3 (amended): the position saved on entry to `_calc_eg` is restored on
the *normal* exit path only; when the probe evaluation raises, the exception
propagates with the structure left at the probe point, not at the last
committed point. -/
theorem claim_C3_restore (ev : Vec → Except Unit (ℚ × Vec)) (x : Vec) (s : PESState) :
    (∀ fg, ev x = .ok fg → (calcEg ev x s).1.pos = s.pos ∧ (calcEg ev x s).2 = .ok fg) ∧
    (∀ e, ev x = .error e → (calcEg ev x s).1.pos = x ∧ (calcEg ev x s).2 = .error e) := by
  constructor
  · intro fg h
    simp [calcEg, setX, getX, h]
  · intro e h
    simp [calcEg, setX, getX, h]

theorem claim_C3_witness :
    (calcEg okEv [7] (initState [0])).1.pos = (initState [0]).pos ∧
    (calcEg okEv [7] (initState [0])).2 = .ok (0, [7]) :=
  (claim_C3_restore okEv [7] (initState [0])).1 (0, [7]) rfl

/-! ## Claims C4, C7, C8, C10 -/

/-- C4 (confirmed): `_update` returns `True` exactly when a re-evaluation
occurred (visible as the `neval` increment inside `eval`); it performs no
re-evaluation when the position is unchanged and the cache holds an energy;
and a repeated `get_f()`/`get_g()` without an intervening position change is
a no-op — the `update` call in its body returns `(False, unchanged state)`,
so `neval` does not increase and the evaluator is not called again
(`(getF o s).2` and `(getG o s).2` are the states those getters leave
behind). -/
theorem claim_C4_lazy_cache (o : Oracles) (feval : Bool) (s : PESState) :
    ((update o feval s).1 = true ↔ (update o feval s).2.neval = s.neval + 1) ∧
    (slotVal s.curr.x = some (getX s) → (slotVal s.curr.f).isSome →
      update o feval s = (false, s)) ∧
    (update o true (getF o s).2 = (false, (getF o s).2)) ∧
    (update o true (getG o s).2 = (false, (getG o s).2)) := by
  refine ⟨?_, update_stable_of o feval s, update_true_stable o s, update_true_stable o s⟩
  unfold update
  by_cases h1 : slotVal s.curr.x = some (getX s)
  · rw [if_pos h1]
    by_cases h2 : (feval && (slotVal s.curr.f).isNone) = true
    · rw [if_pos h2]
      have hf : feval = true := by
        revert h2
        cases feval <;> simp
      subst hf
      rw [updateCore_samePoint]
      simp
    · rw [if_neg h2]
      simp
  · rw [if_neg h1, updateCore_newPoint]
    simp

theorem claim_C4_witness : update oracle0 true state5 = (false, state5) :=
  (claim_C4_lazy_cache oracle0 true state5).2.1 (by decide) (by decide)

/-- C7 (counterexample): an `_update(feval=False)` at an *unchanged*
position whose cache holds no energy (`curr['f'] is None`) takes the
`return False` early exit: no re-evaluation is forced and the current cache
entry is left without energy/force data, contrary to the claim that a
no-evaluation update with no cached energy for the current position always
forces a full re-evaluation. -/
theorem claim_C7_cex :
    slotVal state7.curr.x = some (getX state7) ∧
    slotVal state7.curr.f = none ∧
    update oracle0 false state7 = (false, state7) ∧
    (update oracle0 false state7).2.neval = state7.neval := by
  exact ⟨rfl, rfl, by decide, by decide⟩

/-- C7 (amended): a no-evaluation update forces a full re-evaluation
(logged via `print`, not raised) exactly when the *position changed*; after
such a forced update the cache entry holds energy/force data.  At an
unchanged position, `_update(feval=False)` never evaluates — even when the
cache holds no energy for that position. -/
theorem claim_C7_forced_eval (o : Oracles) (s : PESState) :
    (slotVal s.curr.x ≠ some (getX s) →
      (update o false s).1 = true ∧
      (update o false s).2.neval = s.neval + 1 ∧
      (slotVal (update o false s).2.curr.f).isSome) ∧
    (slotVal s.curr.x = some (getX s) → update o false s = (false, s)) := by
  constructor
  · intro h1
    unfold update
    rw [if_neg h1, updateCore_newPoint]
    exact ⟨rfl, rfl, rfl⟩
  · intro h1
    unfold update
    rw [if_pos h1, Bool.false_and, if_neg (by simp)]

theorem claim_C7_witness :
    (update oracle0 false (initState [3])).1 = true ∧
    (update oracle0 false (initState [3])).2.neval = (initState [3]).neval + 1 ∧
    (slotVal (update oracle0 false (initState [3])).2.curr.f).isSome :=
  (claim_C7_forced_eval oracle0 (initState [3])).1 (by decide)

/-- C8 (confirmed): after any `_update`, `curr` reflects the position just
read; an `_update` at an unchanged position (early return or in-place
fill-in) leaves `last` untouched, while an `_update` at a changed position
promotes the previous `curr` to `last`. -/
theorem claim_C8_promotion (o : Oracles) (feval : Bool) (s : PESState) :
    slotVal (update o feval s).2.curr.x = some (getX s) ∧
    (slotVal s.curr.x = some (getX s) → (update o feval s).2.last = s.last) ∧
    (slotVal s.curr.x ≠ some (getX s) → (update o feval s).2.last = s.curr) := by
  unfold update
  by_cases h1 : slotVal s.curr.x = some (getX s)
  · rw [if_pos h1]
    by_cases h2 : (feval && (slotVal s.curr.f).isNone) = true
    · rw [if_pos h2]
      have hf : feval = true := by
        revert h2
        cases feval <;> simp
      subst hf
      rw [updateCore_samePoint]
      exact ⟨h1, fun _ => rfl, fun hc => absurd h1 hc⟩
    · rw [if_neg h2]
      exact ⟨h1, fun _ => rfl, fun hc => absurd h1 hc⟩
  · rw [if_neg h1, updateCore_newPoint]
    exact ⟨rfl, fun hc => absurd hc h1, fun _ => rfl⟩

theorem claim_C8_witness :
    (update oracle0 true (initState [4])).2.last = (initState [4]).curr :=
  (claim_C8_promotion oracle0 true (initState [4])).2.2 (by decide)

lemma updateCore_g_key (o : Oracles) (fevalReq newPoint : Bool) (x : Vec) (s : PESState) :
    (updateCore o fevalReq newPoint x s).2.curr.g.isSome := by
  cases newPoint <;> cases fevalReq <;> rfl

lemma update_g_key (o : Oracles) (feval : Bool) (s : PESState) (h : s.curr.g.isSome) :
    (update o feval s).2.curr.g.isSome := by
  unfold update
  by_cases h1 : slotVal s.curr.x = some (getX s)
  · rw [if_pos h1]
    by_cases h2 : (feval && (slotVal s.curr.f).isNone) = true
    · rw [if_pos h2]
      apply updateCore_g_key
    · rw [if_neg h2]
      exact h
  · rw [if_neg h1]
    apply updateCore_g_key

lemma calcEg_curr (ev : Vec → Except Unit (ℚ × Vec)) (x : Vec) (s : PESState) :
    (calcEg ev x s).1.curr = s.curr := by
  rcases hev : ev x with e | fg <;> simp [calcEg, setX, getX, hev]

lemma reachable_g_key {s : PESState} (h : Reachable s) : s.curr.g.isSome := by
  induction h with
  | init pos => rfl
  | step_update o feval a ih => exact update_g_key o feval _ ih
  | step_setX target a ih => exact ih
  | step_calcEg ev x a ih =>
    rw [calcEg_curr]
    exact ih

/-- C10 (confirmed): the `'g'` key is present in the `curr` dict of every
reachable Cartesian `PES` state, so the zero-vector default of
`self.curr.get('g', np.zeros_like(diff))` in `set_x` is unreachable: the
third component of the return value is always exactly the stored `curr['g']`
value — in particular Python `None` (not a zero vector) when `set_x` runs
before any energy/force evaluation. -/
theorem claim_C10_g_default_unreachable (s : PESState) (target : Vec) (h : Reachable s) :
    (∃ v, s.curr.g = some v ∧ (setX target s).1.2.2 = v) ∧
    (∀ p : Vec, (setX target (initState p)).1.2.2 = none) := by
  constructor
  · obtain ⟨v, hv⟩ := Option.isSome_iff_exists.mp (reachable_g_key h)
    exact ⟨v, hv, by simp [setX, hv]⟩
  · intro p
    rfl

theorem claim_C10_witness :
    (∃ v, (initState [0]).curr.g = some v ∧ (setX [1] (initState [0])).1.2.2 = v) ∧
    (∀ p : Vec, (setX [1] (initState p)).1.2.2 = none) :=
  claim_C10_g_default_unreachable (initState [0]) [1] (Reachable.init [0])

/-! ## Claims C1, C2 -/

lemma setXLoop_eq (steps : List OdeStep) :
    setXLoop steps = (exitStep steps).elim .outOfTrace loopExitOf := by
  induction steps with
  | nil => rfl
  | cons st rest ih =>
    rcases hb : st.badInt with _ | b
    · by_cases hn : 1000 < st.nfev
      · have hx : stepExits st = true := by simp [stepExits, hb, hn]
        rw [exitStep, List.find?_cons_of_pos _ hx]
        simp [setXLoop, loopExitOf, hb, hn]
      · cases hs : st.status with
        | running =>
          have hx : stepExits st = false := by simp [stepExits, hb, hn, hs]
          rw [exitStep, List.find?_cons_of_neg _ (by simp [hx])]
          simpa [setXLoop, hb, hn, hs, exitStep] using ih
        | finished =>
          have hx : stepExits st = true := by simp [stepExits, hb, hn, hs]
          rw [exitStep, List.find?_cons_of_pos _ hx]
          simp [setXLoop, loopExitOf, hb, hn, hs]
        | failed =>
          have hx : stepExits st = true := by simp [stepExits, hb, hn, hs]
          rw [exitStep, List.find?_cons_of_pos _ hx]
          simp [setXLoop, loopExitOf, hb, hn, hs]
    · have hx : stepExits st = true := by simp [stepExits, hb]
      rw [exitStep, List.find?_cons_of_pos _ hx]
      simp [setXLoop, loopExitOf, hb]

lemma setXLoop_raise_iff (steps : List OdeStep) :
    (setXLoop steps = .tooLong ∨ setXLoop steps = .failedErr) ↔
      ∃ st, exitStep steps = some st ∧
        ((st.badInt = none ∧ 1000 < st.nfev) ∨ st.status = .failed) := by
  rw [setXLoop_eq]
  cases hE : exitStep steps with
  | none => simp
  | some st =>
    simp only [Option.elim_some]
    rcases hb : st.badInt with _ | b
    · by_cases hn : 1000 < st.nfev
      · simp [loopExitOf, hb, hn]
      · cases hs : st.status <;> simp [loopExitOf, hb, hn, hs]
    · cases hs : st.status <;> simp [loopExitOf, hb, hs]

lemma setXLoop_badbreak (steps : List OdeStep) (st : OdeStep)
    (hE : exitStep steps = some st) (hb : st.badInt.isSome) (hf : st.status ≠ .failed) :
    setXLoop steps = .done st.t st.y1 st.y2 st.y3 st.badInt := by
  rw [setXLoop_eq, hE]
  simp [loopExitOf, hb, hf]

/-- C1 (amended): `InternalPES.set_x` raises exactly when the first
loop-exiting step either passes the `nfev` check with no bad internals
detected and `nfev > 1000` (regardless of whether the integration has
already resolved — see the counterexample) or leaves the integrator in
status `'failed'`; bad-internal detection at an accepted (non-failed) step
never raises — it truncates the loop and the implicated bonds/angles come
back in the `bad_int` field; the coordinate-set regeneration is deferred to
the next `kick`, which regenerates the internal-coordinate set and clears
the flag (and does nothing extra when the flag is clear). -/
theorem claim_C1_raise_conditions (jac : Vec → Mat) (na : ℕ) (dx : Vec)
    (steps : List OdeStep) :
    ((setXInt jac na dx steps = .tooLongError ∨ setXInt jac na dx steps = .failedError) ↔
      ∃ st, exitStep steps = some st ∧
        ((st.badInt = none ∧ 1000 < st.nfev) ∨ st.status = .failed)) ∧
    (∀ st, exitStep steps = some st → st.badInt.isSome → st.status ≠ .failed →
      ∃ r, setXInt jac na dx steps = .ok r ∧ r.badInt = st.badInt) ∧
    (∀ fl : IntFlags, fl.badInt.isSome →
      internalKickPost fl = { badInt := none, coordGen := fl.coordGen + 1 }) ∧
    (∀ fl : IntFlags, fl.badInt = none → internalKickPost fl = fl) := by
  refine ⟨?_, ?_, ?_, ?_⟩
  · rw [← setXLoop_raise_iff]
    cases h : setXLoop steps <;> simp [setXInt, h]
  · intro st hE hb hf
    rw [setXInt, setXLoop_badbreak steps st hE hb hf]
    exact ⟨_, rfl, rfl⟩
  · intro fl hbi
    rcases hb2 : fl.badInt with _ | b
    · rw [hb2] at hbi
      exact absurd hbi (by simp)
    · simp [internalKickPost, updateInternalsModel, hb2]
  · intro fl hbi
    simp [internalKickPost, hbi]

theorem claim_C1_witness :
    (∃ r, setXInt jac0 1 [1] stepsC1w = .ok r ∧ r.badInt = some badInt0) ∧
    internalKickPost { badInt := some badInt0, coordGen := 0 } =
      { badInt := none, coordGen := 1 } := by
  refine ⟨?_, ?_⟩
  · exact (claim_C1_raise_conditions jac0 1 [1] stepsC1w).2.1 stepC1w
      (by rfl) (by rfl) (by decide)
  · exact (claim_C1_raise_conditions jac0 1 [1] stepsC1w).2.2.1
      { badInt := some badInt0, coordGen := 0 } (by decide)

/-- C1 (counterexample to the claim as stated): on a trace whose final step
both reaches the end of the unit interval (status `'finished'` — the
integration *resolved*) and crosses the evaluation ceiling, and on which no
step ever reports `'failed'`, the loop body's `ode.nfev > 1000` check runs
before the `while` condition is re-read and the fatal too-long error is
raised anyway — so "raises iff status `'failed'` or the count exceeds the
ceiling *without resolving*" is false. -/
theorem claim_C1_cex :
    setXInt jac0 1 [1] stepsC1cex = .tooLongError ∧
    (∀ st ∈ stepsC1cex, st.status ≠ OdeStatus.failed) ∧
    stepsC1cex.getLast?.map OdeStep.status = some OdeStatus.finished := by
  refine ⟨by decide, by decide, by decide⟩

/-- C2 (amended): when the integration terminates at fraction `t0` with
final integrator state `(y1, y2, y3)`, `InternalPES.set_x` returns the
requested displacement scaled by `t0`, the realized displacement
re-projected through the internal-coordinate Jacobian and scaled by `t0`,
and the realized gradient re-projected through the Jacobian but *not*
scaled by `t0`; the final positions are applied to the structure. -/
theorem claim_C2_return_triple (jac : Vec → Mat) (na : ℕ) (dx : Vec)
    (steps : List OdeStep) (t0 : ℚ) (y1 y2 y3 : Vec) (bad : Option BadInt)
    (h : setXLoop steps = .done t0 y1 y2 y3 bad) :
    setXInt jac na dx steps =
      .ok { dx_initial := vsmul t0 dx, dx_final := vsmul t0 (matVec (jac y1) y2), g_final := matVec (jac y1) y3, posAtoms := List.take na y1, posDummies := List.drop na y1, badInt := bad } := by
  rw [setXInt, h]

theorem claim_C2_witness :
    setXInt jac0 1 [2] stepsC2 =
      .ok { dx_initial := vsmul (1/2) [2], dx_final := vsmul (1/2) (matVec (jac0 [5]) [2]), g_final := matVec (jac0 [5]) [4], posAtoms := List.take 1 [5], posDummies := List.drop 1 [5], badInt := some badInt0 } :=
  claim_C2_return_triple jac0 1 [2] stepsC2 (1/2) [5] [2] [4] (some badInt0) (by rfl)

/-- C2 (counterexample to the claim as stated): on a run truncated at
`t0 = 1/2` the returned realized displacement is scaled by `t0`
(`dx_final = [1]`), but the returned realized gradient is `B @ y[2] = [4]`,
not the `t0`-scaled `[2]` the claim (and spec §4.4) require — the gradient
is *not* scaled by the completed fraction. -/
theorem claim_C2_cex :
    setXInt jac0 1 [2] stepsC2 = .ok retC2 ∧
    retC2.dx_final = vsmul (1/2) (matVec (jac0 [5]) [2]) ∧
    (retC2.dx_initial, retC2.dx_final, retC2.g_final) ≠
      specReturnTriple (1/2) (jac0 [5]) [2] [2] [4] := by
  refine ⟨?_, ?_, ?_⟩
  · show setXInt jac0 1 [2] stepsC2 = .ok retC2
    unfold setXInt
    rw [show setXLoop stepsC2 = .done (1/2) [5] [2] [4] (some badInt0) from rfl]
    norm_num [retC2, vsmul, matVec, dotQ, jac0]
  · norm_num [retC2, vsmul, matVec, dotQ, jac0]
  · norm_num [retC2, specReturnTriple, vsmul, matVec, dotQ, jac0]
